import Mathlib

/-!
Verification of the hardcoded-api-key-detector core against its
natural-language specification.

The development shallowly embeds the detection pipeline of the repository:

* `src/utils/entropy.js` — Shannon-entropy computation and classification
  (`calculateEntropy`, `analyzeEntropy`);
* `src/utils/safeRegex.js` — the guarded regex-execution loop
  (`safeRegexExec`) and the static ReDoS validator (`validatePattern`);
* `src/scanner/analyzer.js` — inline-ignore-comment parsing
  (`parseInlineIgnoreComments`), the per-file analysis pipeline
  (`analyzeContent`) with its guards, and pattern loading
  (`mergePatterns`, `validateAndFilterPatterns`, `loadPatterns`);
* `src/baseline/BaselineManager.js` — finding hashing
  (`generateFindingHash`), baseline lookup (`isBaselined`) and
  baseline filtering (`filterFindings`);
* `src/index.js` — the scan orchestrator (`scanSingleThreaded`,
  `scanParallel`, `formatResults`).

External collaborators are abstracted as parameters: the JavaScript
regex engine is a step function handed to the execution loop, the
SHA-256 digest is an abstract function on the hashed tuple, and the
filesystem is a map from paths to file states.  Wall-clock timeouts
(`Date.now()` polling) are real-time behaviour and are outside the
embedding; the match-count ceiling, which is pure control flow, is
embedded exactly.
-/

namespace Detector

/-! ## Entropy (src/utils/entropy.js) -/

/-- Shannon entropy of a string, translated from `calculateEntropy`:
`0` for empty input, otherwise `-Σ p(c) · log₂ p(c)` over the distinct
characters of the string, with `p(c) = count(c) / length`.
JavaScript's floating-point arithmetic is idealised as real arithmetic. -/
noncomputable def calculateEntropy (s : String) : ℝ :=
  if s.data.length = 0 then 0
  else
    ∑ c ∈ s.data.toFinset,
      -(((s.data.count c : ℝ) / (s.data.length : ℝ)) *
        Real.logb 2 ((s.data.count c : ℝ) / (s.data.length : ℝ)))

/-- Result record of `analyzeEntropy`. -/
structure EntropyAnalysis where
  entropy : ℝ
  level : String
  isSecret : Bool

/-- Classification of a string by entropy, translated from
`analyzeEntropy`: level and secret flag are chosen by the threshold
cascade `≥ 5.0`, `≥ 4.0`, `≥ 3.5`. -/
noncomputable def analyzeEntropy (s : String) : EntropyAnalysis :=
  let e := calculateEntropy s
  if 5.0 ≤ e then ⟨e, "high", true⟩
  else if 4.0 ≤ e then ⟨e, "medium", true⟩
  else if 3.5 ≤ e then ⟨e, "medium", false⟩
  else ⟨e, "low", false⟩

/-! ## Safe regex execution (src/utils/safeRegex.js) -/

/-- The fixed match-count ceiling `MAX_MATCHES`. -/
def MAX_MATCHES : Nat := 10000

/-- Is a character one of the quantifiers `+` `*` (the class `[+*]`)? -/
def isQuantChar (c : Char) : Bool := c == '+' || c == '*'

/-- Is a character a JavaScript word character (`\w`, i.e. `[A-Za-z0-9_]`)? -/
def isWordChar (c : Char) : Bool :=
  (('a' ≤ c && c ≤ 'z') || ('A' ≤ c && c ≤ 'Z') || ('0' ≤ c && c ≤ '9') || c == '_')

/-- The test `/\([^)]*[+*]\)[+*]/.test(pattern)` from `validatePattern`
(nested quantifiers): some `(` at position `i` and `)` at position `j`
enclose only non-`)` characters, the character before the `)` is a
quantifier, and the character after the `)` is a quantifier. -/
def nestedQuantifierCheck (l : List Char) : Bool :=
  (List.range l.length).any fun i =>
    (List.range l.length).any fun j =>
      decide (i + 2 ≤ j) &&
      (l.getD i ' ' == '(') && (l.getD j ' ' == ')') &&
      decide (j + 1 < l.length) &&
      ((List.range (j - (i + 1))).all fun k => !(l.getD (i + 1 + k) ' ' == ')')) &&
      isQuantChar (l.getD (j - 1) ' ') && isQuantChar (l.getD (j + 1) ' ')

/-- Split a character list at newline characters (segments of the input
on which the JavaScript `.` metacharacter can match). -/
def splitAtNewlines (l : List Char) : List (List Char) :=
  l.foldr (fun c segs =>
    match segs with
    | [] => if c == '\n' then [[], []] else [[c]]
    | seg :: rest => if c == '\n' then [] :: seg :: rest else (c :: seg) :: rest) [[]]

/-- The test `/\|.*\|.*\|/.test(pattern) && /[+*]/.test(pattern)` from
`validatePattern` (multiple alternations with quantifiers): since `.`
does not match newlines, the first regex fires exactly when some
newline-free segment contains at least three `|` characters. -/
def multipleAlternationsCheck (l : List Char) : Bool :=
  ((splitAtNewlines l).any fun seg => decide (3 ≤ seg.count '|')) &&
  l.any isQuantChar

/-- Boolean prefix test on character lists. -/
def listPrefixOf : List Char → List Char → Bool
  | [], _ => true
  | _ :: _, [] => false
  | a :: as, b :: bs => a == b && listPrefixOf as bs

/-- Boolean contiguous-substring test on character lists. -/
def listInfixOf (needle hay : List Char) : Bool :=
  (List.range (hay.length + 1)).any fun i => listPrefixOf needle (hay.drop i)

/-- The test `/(\.\*){2,}|(\.\+){2,}/.test(pattern)` from
`validatePattern` (two-or-more greedy wildcard groups in sequence):
the pattern source contains `.*.*` or `.+.+` as a contiguous substring. -/
def wildcardSequenceCheck (l : List Char) : Bool :=
  listInfixOf ['.', '*', '.', '*'] l || listInfixOf ['.', '+', '.', '+'] l

/-- The test `/\(\w\+\){2,}\$/.test(pattern)` from `validatePattern`
(repeated word groups before a literal dollar): two consecutive
`(w+)`-shaped groups immediately followed by `$` occur somewhere. -/
def repeatedGroupsAtEndCheck (l : List Char) : Bool :=
  (List.range l.length).any fun i =>
    decide (i + 8 < l.length) &&
    (l.getD i ' ' == '(') && isWordChar (l.getD (i + 1) ' ') &&
    (l.getD (i + 2) ' ' == '+') && (l.getD (i + 3) ' ' == ')') &&
    (l.getD (i + 4) ' ' == '(') && isWordChar (l.getD (i + 5) ' ') &&
    (l.getD (i + 6) ' ' == '+') && (l.getD (i + 7) ' ' == ')') &&
    (l.getD (i + 8) ' ' == '$')

/-- The test `/\\[1-9]/.test(pattern)` from `validatePattern`
(backreferences): a backslash immediately followed by a digit `1`–`9`. -/
def backreferenceCheck (l : List Char) : Bool :=
  (List.range l.length).any fun i =>
    (l.getD i ' ' == '\\') &&
    (match l.getD (i + 1) ' ' with
     | c => decide (i + 1 < l.length) && ('1' ≤ c && c ≤ '9'))

/-- The test `/\[[^\]]{50,}\]/.test(pattern)` from `validatePattern`
(very large character class): a `[` and a `]` enclosing at least 50
characters none of which is `]`. -/
def largeCharClassCheck (l : List Char) : Bool :=
  (List.range l.length).any fun i =>
    (List.range l.length).any fun j =>
      decide (i + 51 ≤ j) &&
      (l.getD i ' ' == '[') && (l.getD j ' ' == ']') &&
      ((List.range (j - (i + 1))).all fun k => !(l.getD (i + 1 + k) ' ' == ']'))

/-- Result record of `validatePattern`. -/
structure ValidationResult where
  safe : Bool
  warnings : List String
deriving DecidableEq

/-- Static ReDoS validation of a pattern source, translated from
`validatePattern`: the checks run in source order, each appending its
warning; only the nested-quantifier check and the wildcard-sequence
check clear the `safe` flag. -/
def validatePattern (p : String) : ValidationResult :=
  let l := p.data
  let w1 := nestedQuantifierCheck l
  let w2 := multipleAlternationsCheck l
  let w3 := wildcardSequenceCheck l
  let w4 := repeatedGroupsAtEndCheck l
  let w5 := backreferenceCheck l
  let w6 := largeCharClassCheck l
  { safe := !(w1 || w3)
    warnings :=
      (if w1 then ["Nested quantifiers detected - may cause ReDoS"] else []) ++
      (if w2 then ["Multiple alternations with quantifiers - may cause ReDoS"] else []) ++
      (if w3 then ["Multiple .* or .+ in sequence - may cause ReDoS"] else []) ++
      (if w4 then ["Repeated word boundaries at end - may cause ReDoS"] else []) ++
      (if w5 then ["Backreferences detected - may impact performance"] else []) ++
      (if w6 then ["Very large character class - may impact performance"] else []) }

/-- A compiled global-flag regex over some fixed content, abstracted as
the step function the `while ((match = regex.exec(content)) !== null)`
loop interacts with: from a `lastIndex`, `find` either yields the next
match (its start index and its length) or `none`.  The two fields
axiomatise what the JavaScript engine guarantees for a `g`-flag regex:
a match starts at or after `lastIndex` and ends within the content. -/
structure RegexEngine where
  len : Nat
  find : Nat → Option (Nat × Nat)
  find_ge : ∀ li i l, find li = some (i, l) → li ≤ i
  find_le : ∀ li i l, find li = some (i, l) → i + l ≤ len

/-- The error produced when the match-count ceiling is hit. -/
def tooManyMatchesError : String :=
  "Too many matches (>10000). Pattern may be too broad or vulnerable to ReDoS."

/-- The `while` loop of `safeRegexExec`: `matchCount` counts the matches
pushed so far; the code throws when `matchCount++ > MAX_MATCHES`, i.e.
when the number of already-pushed matches exceeds the ceiling; a
zero-length match advances `lastIndex` by one to guarantee progress.
The wall-clock timeout check (`Date.now()` polling) is real-time
behaviour outside the embedding and is not modelled. -/
def safeRegexExecGo (r : RegexEngine) (li : Nat) (matchCount : Nat)
    (acc : List (Nat × Nat)) : Except String (List (Nat × Nat)) :=
  match h : r.find li with
  | none => .ok acc
  | some (i, l) =>
    if MAX_MATCHES < matchCount then .error tooManyMatchesError
    else
      safeRegexExecGo r (if l = 0 then i + 1 else i + l) (matchCount + 1)
        (acc ++ [(i, l)])
termination_by r.len + 1 - li
decreasing_by
  have hge := r.find_ge li i l h
  have hle := r.find_le li i l h
  split <;> omega

/-- Function `safeRegexExec(regex, content)`, starting from `lastIndex = 0` with
zero matches accumulated. -/
def safeRegexExec (r : RegexEngine) : Except String (List (Nat × Nat)) :=
  safeRegexExecGo r 0 0 []

/-- An engine for a pattern that matches every single character of a
content string of length `n`: from any `lastIndex` inside the content
the next match is the one-character match right there. -/
def everyCharEngine (n : Nat) : RegexEngine where
  len := n
  find li := if li < n then some (li, 1) else none
  find_ge := by
    intro li i l h
    by_cases hlt : li < n <;> simp [hlt] at h
    omega
  find_le := by
    intro li i l h
    by_cases hlt : li < n <;> simp [hlt] at h
    omega

/-! ## Content analyzer (src/scanner/analyzer.js) -/

/-- Test `line.includes(sub)`: substring containment, as used for sentinel
detection. -/
def includesSub (line sub : String) : Bool := listInfixOf sub.data line.data

/-- Split `content.split('\n')`: the list of lines obtained by cutting at
every newline character (an empty content yields one empty line, as in
JavaScript). -/
def splitLines (s : String) : List String :=
  (splitAtNewlines s.data).map String.mk

/-- Maximum file size `MAX_FILE_SIZE` (10 MiB). -/
def MAX_FILE_SIZE : Nat := 10 * 1024 * 1024

/-- Maximum line count `MAX_LINES`. -/
def MAX_LINES : Nat := 100000

/-- The loop body of `parseInlineIgnoreComments`, one line at a time.
`lineNumber = i + 1` is 1-based; the `i + 1 < lines.length` bounds check
of the disable-next-line branch is the `rest` list being non-empty.
The branches are tried in source order; note that any line containing
`hardcoded-detector:disable-next-line` or `hardcoded-detector:disable-line`
also contains the substring `hardcoded-detector:disable`, so the first
branch captures it. -/
def parseIgnoreGo : List String → Nat → Bool → Finset ℕ → Finset ℕ
  | [], _, _, ignored => ignored
  | line :: rest, i, blockDisabled, ignored =>
    let lineNumber := i + 1
    if includesSub line "hardcoded-detector:disable" then
      parseIgnoreGo rest (i + 1) true (insert lineNumber ignored)
    else if includesSub line "hardcoded-detector:enable" then
      parseIgnoreGo rest (i + 1) false ignored
    else if blockDisabled then
      parseIgnoreGo rest (i + 1) blockDisabled (insert lineNumber ignored)
    else if includesSub line "hardcoded-detector:disable-next-line" then
      parseIgnoreGo rest (i + 1) blockDisabled
        (if rest.isEmpty then ignored else insert (lineNumber + 1) ignored)
    else if includesSub line "hardcoded-detector:disable-line" then
      parseIgnoreGo rest (i + 1) blockDisabled (insert lineNumber ignored)
    else
      parseIgnoreGo rest (i + 1) blockDisabled ignored

/-- Function `parseInlineIgnoreComments(lines)`: the set of 1-based line numbers
to ignore, computed in a single forward pass. -/
def parseInlineIgnoreComments (lines : List String) : Finset ℕ :=
  parseIgnoreGo lines 0 false ∅

/-- A detection pattern record (one entry of the catalog). -/
structure PatternInfo where
  pattern : String
  name : String
  severity : String
  category : String
  service : String
  description : String
  confidence : String
  useEntropyFilter : Bool
deriving DecidableEq

/-- One regex match as the analyzer consumes it: `match.index` and the
matched text `match[0]`. -/
structure RMatch where
  index : Nat
  text : String
deriving DecidableEq

/-- Analysis options handed to `analyzeContent`. -/
structure AnalysisOptions where
  minSeverity : Option String
  disabledPatterns : List String
  excludeCategories : List String
  useEntropyFilter : Bool
deriving DecidableEq

/-- The `severityLevels` lookup table of `shouldSkipPattern`. -/
def severityLevelsLookup (s : String) : Option Nat :=
  if s = "low" then some 1
  else if s = "medium" then some 2
  else if s = "high" then some 3
  else if s = "critical" then some 4
  else none

/-- Predicate `shouldSkipPattern(patternId, patternInfo, options)`: disabled id,
severity rank below threshold (`|| 2` defaulting for unknown ranks), or
excluded category. -/
def shouldSkipPattern (patternId : String) (p : PatternInfo)
    (opts : AnalysisOptions) : Bool :=
  opts.disabledPatterns.contains patternId ||
  (match opts.minSeverity with
   | some ms =>
     decide ((severityLevelsLookup p.severity).getD 2 <
       (severityLevelsLookup ms).getD 2)
   | none => false) ||
  opts.excludeCategories.contains p.category

/-- JavaScript `x || d` on strings: the default wins only when the
value is the empty string (falsy). -/
def jsOrString (s d : String) : String := if s = "" then d else s

/-- One line of surrounding context in a finding. -/
structure ContextLine where
  lineNumber : Nat
  content : String
  isTarget : Bool

/-- Function `getContext(lines, centerLine, 2)`: the slice of up to two lines on
each side of the 0-based `centerLine`, clamped to the file, each tagged
with its 1-based number and whether it is the target line. -/
def getContext (lines : List String) (centerLine : Nat) : List ContextLine :=
  let start := centerLine - 2
  let stop := min (lines.length - 1) (centerLine + 2)
  (List.range (stop + 1 - start)).map fun idx =>
    { lineNumber := start + idx + 1
      content := (lines.drop start).getD idx ""
      isTarget := start + idx = centerLine }

/-- A reported finding, with the fields `analyzeContent` pushes.  The
source field `match` is a reserved word in Lean and is named
`matchText`; the nested `entropy: (value, level)` object is flattened
into `entropyValue` and `entropyLevel`. -/
structure Finding where
  id : String
  type : String
  category : String
  name : String
  severity : String
  description : String
  service : String
  matchText : String
  line : Nat
  column : Int
  lineContent : String
  context : List ContextLine
  confidence : String
  entropyValue : ℝ
  entropyLevel : String

/-- The 1-based line number of a match offset:
`content.substring(0, index).split('\n').length`. -/
def lineNumberAt (content : String) (idx : Nat) : Nat :=
  (content.data.take idx).count '\n' + 1

/-- The column of a match offset:
`match.index - content.lastIndexOf('\n', match.index - 1)`, where a
missing newline yields `-1` and hence column `index + 1`. -/
def columnAt (content : String) (idx : Nat) : Int :=
  let before := content.data.take idx
  match (List.range before.length).filter
      (fun k => before.getD k ' ' == '\n') |>.getLast? with
  | some k => (idx : Int) - (k : Int)
  | none => (idx : Int) + 1

/-- The state of one file as seen through the filesystem collaborator:
missing (`ENOENT`), permission denied (`EACCES`), any other read error,
or readable with a byte size, the head bytes actually read by
`isBinaryFile` (the first `min(512, size)` bytes), and the decoded
text. -/
inductive FileState where
  | missing
  | permissionDenied
  | otherError
  | ok (size : Nat) (headBytes : List Nat) (text : String)

/-- Check `isBinaryFile`: a null byte occurs among the bytes actually read. -/
def isBinaryFile (headBytes : List Nat) : Bool := headBytes.any (· == 0)

/-- Function `analyzeContent(filePath, options)`, translated from the source.
The filesystem result for the path is the `FileState` argument; the
regex engine behind `findMatches` (pattern compilation plus
`safeRegexExec`, with execution errors already converted to an empty
match list) is the `execM` parameter.  All error paths of the
`try/catch` return the empty findings list, so the embedding is a total
function. -/
noncomputable def analyzeContent (patterns : List (String × PatternInfo))
    (execM : PatternInfo → String → List RMatch)
    (fstate : FileState) (opts : AnalysisOptions) : List Finding :=
  match fstate with
  | .missing => []
  | .permissionDenied => []
  | .otherError => []
  | .ok size headBytes text =>
    if MAX_FILE_SIZE < size then []
    else if isBinaryFile headBytes then []
    else
      let lines := splitLines text
      if MAX_LINES < lines.length then []
      else
        let ignoredLines := parseInlineIgnoreComments lines
        (patterns.filter fun kv => !shouldSkipPattern kv.1 kv.2 opts).flatMap
          fun kv =>
            (execM kv.2 text).filterMap fun m =>
              let lineNumber := lineNumberAt text m.index
              if lineNumber ∈ ignoredLines then none
              else
                let lineContent := lines.getD (lineNumber - 1) ""
                let ea := analyzeEntropy m.text
                if opts.useEntropyFilter && kv.2.useEntropyFilter && !ea.isSecret
                then none
                else some
                  { id := kv.1
                    type := jsOrString kv.2.category "unknown"
                    category := jsOrString kv.2.category "unknown"
                    name := kv.2.name
                    severity := jsOrString kv.2.severity "medium"
                    description := kv.2.description
                    service := jsOrString kv.2.service "unknown"
                    matchText := m.text
                    line := lineNumber
                    column := columnAt text m.index
                    lineContent := lineContent.trim
                    context := getContext lines (lineNumber - 1)
                    confidence := jsOrString kv.2.confidence "medium"
                    entropyValue := ea.entropy
                    entropyLevel := ea.level }

/-! ## Baseline manager (src/baseline/BaselineManager.js) -/

/-- The tuple `generateFindingHash` serialises and digests:
`JSON.stringify(.. file, line, id, match ..)` is an injective encoding
of exactly these four fields, so the external SHA-256 digest is
abstracted as a function on the tuple itself. -/
structure FindingKey where
  file : String
  line : Nat
  id : String
  matchText : String
deriving DecidableEq

/-- One persisted baseline entry (the fields relevant to filtering;
review metadata does not influence the lookup logic). -/
structure BaselineEntry where
  type : String
  name : String
  severity : String
  hash : String
  line : Nat
  matchPrefix : String
deriving DecidableEq

/-- A loaded baseline: its `files` object, keyed by `"path:line"`. -/
structure Baseline where
  files : List (String × BaselineEntry)
deriving DecidableEq

/-- Function `generateFindingHash(finding, filePath)`: the digest of the
`(file, line, id, match)` tuple, for an abstract digest function
`sha` standing in for SHA-256 over the JSON serialisation. -/
def generateFindingHash (sha : FindingKey → String) (f : Finding)
    (filePath : String) : String :=
  sha ⟨filePath, f.line, f.id, f.matchText⟩

/-- The `"path:line"` key used for baseline lookups. -/
def baselineKey (filePath : String) (line : Nat) : String :=
  filePath ++ ":" ++ toString line

/-- Predicate `isBaselined(finding, filePath)`: false with no loaded baseline,
false when no entry sits at the `file:line` key, and otherwise true
exactly when the stored hash equals the digest recomputed from the
current finding. -/
def isBaselined (sha : FindingKey → String) (baseline : Option Baseline)
    (f : Finding) (filePath : String) : Bool :=
  match baseline with
  | none => false
  | some b =>
    match b.files.lookup (baselineKey filePath f.line) with
    | none => false
    | some entry => entry.hash == generateFindingHash sha f filePath

/-- One file's worth of findings as the orchestrator aggregates them. -/
structure FileResult where
  file : String
  findings : List Finding

/-- Function `filterFindings(findings)`: the input unchanged when no baseline has
been loaded; otherwise each file keeps its non-baselined findings, and
a file whose surviving list is empty is dropped from the output. -/
def filterFindings (sha : FindingKey → String) (baseline : Option Baseline)
    (findings : List FileResult) : List FileResult :=
  match baseline with
  | none => findings
  | some b =>
    findings.filterMap fun fr =>
      let kept := fr.findings.filter fun f => !isBaselined sha (some b) f fr.file
      if 0 < kept.length then some ⟨fr.file, kept⟩ else none

/-! ## Scan orchestrator (src/index.js and src/scanner/analyzerWorker.js) -/

/-- A pattern catalog as a keyed mapping (a JSON object: association
list with unique keys). -/
def PatternMap := List (String × PatternInfo)

/-- A custom-patterns document: an optional `patterns` object overlaid
onto the built-in catalog and an optional `disabled` id list. -/
structure CustomPatterns where
  patterns : Option (List (String × PatternInfo))
  disabled : Option (List String)

/-- Overlay `Object.assign(merged, customPatterns.patterns)`: keys already in
the base keep their position but take the updated value; new keys are
appended. -/
def objAssign (base upd : List (String × PatternInfo)) :
    List (String × PatternInfo) :=
  (base.map fun kv =>
    (kv.1, match upd.lookup kv.1 with
           | some v => v
           | none => kv.2)) ++
  upd.filter fun kv => (base.lookup kv.1).isNone

/-- Deletion `delete merged[patternId]` for every id in the disabled list. -/
def deleteKeys (m : List (String × PatternInfo)) (ids : List String) :
    List (String × PatternInfo) :=
  m.filter fun kv => !ids.contains kv.1

/-- Function `mergePatterns(defaultPatterns, customPatterns)`: overlay the custom
`patterns` object, then remove every id of the `disabled` list. -/
def mergePatterns (defaultPatterns : List (String × PatternInfo))
    (custom : CustomPatterns) : List (String × PatternInfo) :=
  let merged :=
    match custom.patterns with
    | some ps => objAssign defaultPatterns ps
    | none => defaultPatterns
  match custom.disabled with
  | some ids => deleteKeys merged ids
  | none => merged

/-- Function `validateAndFilterPatterns(patterns)`: drop every pattern whose
source the static ReDoS validator flags unsafe. -/
def validateAndFilterPatterns (patterns : List (String × PatternInfo)) :
    List (String × PatternInfo) :=
  patterns.filter fun kv => (validatePattern kv.2.pattern).safe

/-- Function `loadPatterns(customPatternsPath)`: the built-in catalog, overlaid
with the custom document when one is given, then validator-filtered.
This runs once in the `ContentAnalyzer` constructor, not per analysis
call. -/
def loadPatterns (defaultPatterns : List (String × PatternInfo))
    (custom : Option CustomPatterns) : List (String × PatternInfo) :=
  validateAndFilterPatterns
    (match custom with
     | some c => mergePatterns defaultPatterns c
     | none => defaultPatterns)

/-- Options of a `HardcodedApiDetector` scan (the fields the two scan
strategies consume).  The loaded baseline content is part of the scan
context: both strategies load the same baseline file. -/
structure ScanOptions where
  customPatterns : Option CustomPatterns
  severity : String
  disabledPatterns : List String
  excludeCategories : List String
  useEntropyFilter : Bool
  useBaseline : Bool

/-- The per-file options object both strategies build for
`analyzeContent`. -/
def toAnalysisOptions (o : ScanOptions) : AnalysisOptions :=
  { minSeverity := some o.severity
    disabledPatterns := o.disabledPatterns
    excludeCategories := o.excludeCategories
    useEntropyFilter := o.useEntropyFilter }

/-- The aggregate scan result.  `summary` is the severity-count object
read as a total map (an absent key reads as 0); `scanTime` is wall
clock and not modelled. -/
structure ScanResult where
  totalFiles : Nat
  filesWithIssues : Nat
  summary : String → Nat
  findings : List FileResult

/-- Function `formatResults(totalFiles, findings)`: `filesWithIssues` is the
length of the per-file list and the summary counts findings by their
severity string. -/
def formatResults (totalFiles : Nat) (findings : List FileResult) :
    ScanResult :=
  { totalFiles := totalFiles
    filesWithIssues := findings.length
    summary := fun sev =>
      ((findings.flatMap FileResult.findings).filter
        fun f => f.severity == sev).length
    findings := findings }

/-- Strategy `scanSingleThreaded(files)`: analyze each file in order with the
instance analyzer — whose catalog is `loadPatterns` applied to the
configured custom-patterns document — keep files with findings, apply
baseline filtering when enabled, and format. -/
noncomputable def scanSingleThreaded (sha : FindingKey → String)
    (builtin : List (String × PatternInfo))
    (execM : PatternInfo → String → List RMatch)
    (fs : String → FileState) (bl : Baseline) (o : ScanOptions)
    (files : List String) : ScanResult :=
  let analyzerPatterns := loadPatterns builtin o.customPatterns
  let results := files.filterMap fun file =>
    let findings :=
      analyzeContent analyzerPatterns execM (fs file) (toAnalysisOptions o)
    if 0 < findings.length then some (⟨file, findings⟩ : FileResult) else none
  let filtered :=
    if o.useBaseline then filterFindings sha (some bl) results else results
  formatResults files.length filtered

/-- Strategy `scanParallel(files)`: each worker runs `analyzerWorker.js`, which
constructs `new ContentAnalyzer()` with no custom-patterns path, so the
worker catalog is `loadPatterns` of the built-in catalog alone.  The
deterministic model of a worker is the same `analyzeContent` call
(which never throws), results arrive in task order via `Promise.all`,
error-free empty results are dropped, then baseline filtering and
formatting proceed as in the sequential strategy. -/
noncomputable def scanParallel (sha : FindingKey → String)
    (builtin : List (String × PatternInfo))
    (execM : PatternInfo → String → List RMatch)
    (fs : String → FileState) (bl : Baseline) (o : ScanOptions)
    (files : List String) : ScanResult :=
  let workerPatterns := loadPatterns builtin none
  let results := files.map fun file =>
    (file, analyzeContent workerPatterns execM (fs file) (toAnalysisOptions o))
  let findings := (results.filter fun r => 0 < r.2.length).map
    fun r => (⟨r.1, r.2⟩ : FileResult)
  let filtered :=
    if o.useBaseline then filterFindings sha (some bl) findings else findings
  formatResults files.length filtered

/-! ## Concrete engine instances for scenarios -/

/-- The 0-based offsets at which `needle` occurs in `hay`. -/
def occIndices (needle hay : String) : List Nat :=
  (List.range hay.data.length).filter fun i =>
    listPrefixOf needle.data (hay.data.drop i)

/-- A concrete instantiation of the external regex engine used by
`findMatches`: the `g`-flag behaviour of a pattern matching exactly the
literal string `needle`, producing one match per occurrence. -/
def literalEngine (needle : String) : PatternInfo → String → List RMatch :=
  fun _ t => (occIndices needle t).map fun i => ⟨i, needle⟩

/-- A catalog entry used by the concrete scenarios. -/
def corpPattern : PatternInfo :=
  { pattern := "CORPKEY0"
    name := "Corp Key"
    severity := "high"
    category := "custom"
    service := "corp"
    description := "Proprietary key"
    confidence := "high"
    useEntropyFilter := false }

/-- A concrete finding used by witnesses. -/
noncomputable def sampleFinding : Finding :=
  { id := "corp_key"
    type := "custom"
    category := "custom"
    name := "Corp Key"
    severity := "high"
    description := "Proprietary key"
    service := "corp"
    matchText := "CORPKEY0"
    line := 1
    column := 5
    lineContent := "x = CORPKEY0;"
    context := []
    confidence := "high"
    entropyValue := 0
    entropyLevel := "low" }

/-! ## Theorems -/

/-- Each summand of the entropy sum is nonnegative. -/
theorem entropyTermNonneg (cnt L : ℕ) (h1 : 0 < cnt) (h2 : cnt ≤ L) :
    0 ≤ -(((cnt : ℝ) / (L : ℝ)) * Real.logb 2 ((cnt : ℝ) / (L : ℝ))) := by
  have hL : (0 : ℝ) < (L : ℝ) := by exact_mod_cast Nat.lt_of_lt_of_le h1 h2
  have hp : (0 : ℝ) < (cnt : ℝ) / (L : ℝ) :=
    div_pos (by exact_mod_cast h1) hL
  have hp1 : (cnt : ℝ) / (L : ℝ) ≤ 1 := by
    rw [div_le_one hL]
    exact_mod_cast h2
  have hlog : Real.logb 2 ((cnt : ℝ) / (L : ℝ)) ≤ 0 :=
    Real.logb_nonpos (by norm_num) hp.le hp1
  have hmul : 0 ≤ ((cnt : ℝ) / (L : ℝ)) * (-(Real.logb 2 ((cnt : ℝ) / (L : ℝ)))) :=
    mul_nonneg hp.le (by linarith)
  linarith [hmul]

/-- C9: `calculateEntropy` is nonnegative on every string, is `0` on the
empty string and on every single-repeated-character string, and equals
`log₂ n` on a string whose `n` distinct characters occur with uniform
frequency. -/
theorem calculateEntropy_monotonicity :
    (∀ s : String, 0 ≤ calculateEntropy s) ∧
    calculateEntropy "" = 0 ∧
    (∀ (c : Char) (k : ℕ),
      calculateEntropy (String.mk (List.replicate k c)) = 0) ∧
    (∀ (s : String) (n : ℕ), s.data ≠ [] → s.data.toFinset.card = n →
      (∀ c ∈ s.data.toFinset, s.data.count c * n = s.data.length) →
      calculateEntropy s = Real.logb 2 (n : ℝ)) := by
  refine ⟨?_, ?_, ?_, ?_⟩
  · intro s
    unfold calculateEntropy
    split_ifs with h
    · exact le_refl 0
    · refine Finset.sum_nonneg fun c hc => ?_
      refine entropyTermNonneg _ _ ?_ (List.count_le_length c s.data)
      exact List.count_pos_iff.mpr (List.mem_toFinset.mp hc)
  · simp [calculateEntropy]
  · intro c k
    cases k with
    | zero => simp [calculateEntropy]
    | succ k =>
      have hd : (String.mk (List.replicate (k + 1) c)).data =
          List.replicate (k + 1) c := rfl
      unfold calculateEntropy
      rw [hd, if_neg (by simp)]
      rw [List.toFinset_replicate_of_ne_zero (Nat.succ_ne_zero k)]
      rw [Finset.sum_singleton, List.count_replicate_self,
        List.length_replicate]
      rw [div_self (by exact_mod_cast Nat.succ_ne_zero k)]
      simp [Real.logb_one]
  · intro s n hne hcard huni
    have hL : 0 < s.data.length := List.length_pos.mpr hne
    have hn : 0 < n := by
      rcases List.exists_mem_of_ne_nil s.data hne with ⟨c, hc⟩
      have : 0 < s.data.toFinset.card :=
        Finset.card_pos.mpr ⟨c, List.mem_toFinset.mpr hc⟩
      omega
    have hn0 : (0 : ℝ) < (n : ℝ) := by exact_mod_cast hn
    unfold calculateEntropy
    rw [if_neg (by omega)]
    have hstep : ∀ c ∈ s.data.toFinset,
        -(((s.data.count c : ℝ) / (s.data.length : ℝ)) *
          Real.logb 2 ((s.data.count c : ℝ) / (s.data.length : ℝ))) =
        ((n : ℝ))⁻¹ * Real.logb 2 (n : ℝ) := by
      intro c hc
      have hcnt' : (s.data.count c : ℝ) * (n : ℝ) = (s.data.length : ℝ) := by
        exact_mod_cast huni c hc
      have hc0 : (0 : ℝ) < (s.data.count c : ℝ) := by
        exact_mod_cast List.count_pos_iff.mpr (List.mem_toFinset.mp hc)
      have hp : (s.data.count c : ℝ) / (s.data.length : ℝ) = ((n : ℝ))⁻¹ := by
        rw [← hcnt']
        rw [div_mul_eq_div_div]
        rw [div_self hc0.ne']
        exact one_div _
      rw [hp, Real.logb_inv]
      ring
    rw [Finset.sum_congr rfl hstep, Finset.sum_const, hcard, nsmul_eq_mul]
    field_simp

/-- Witness for C9: a four-fold repeated character has entropy `0`, and
the two-character uniform string `"ab"` has entropy `log₂ 2`. -/
theorem calculateEntropy_monotonicity_witness :
    calculateEntropy (String.mk (List.replicate 4 'a')) = 0 ∧
    ("ab".data ≠ [] ∧ "ab".data.toFinset.card = 2 ∧
      (∀ c ∈ "ab".data.toFinset, "ab".data.count c * 2 = "ab".data.length)) ∧
    calculateEntropy "ab" = Real.logb 2 (2 : ℝ) :=
  ⟨calculateEntropy_monotonicity.2.2.1 'a' 4,
   ⟨by decide, by decide, by decide⟩,
   calculateEntropy_monotonicity.2.2.2 "ab" 2 (by decide) (by decide)
     (by decide)⟩

/-- C6: `analyzeEntropy` carries the entropy value through unchanged and
classifies it by the threshold cascade: level `"high"` with secret flag
exactly at entropy `≥ 5.0`, secret flag exactly at `≥ 4.0`, level
`"medium"` exactly on `[3.5, 5.0)`, level `"low"` exactly below `3.5`;
being a total function of the string, it is pure and never errors. -/
theorem analyzeEntropy_classification (s : String) :
    (analyzeEntropy s).entropy = calculateEntropy s ∧
    ((analyzeEntropy s).level = "high" ↔ 5.0 ≤ calculateEntropy s) ∧
    ((analyzeEntropy s).isSecret = true ↔ 4.0 ≤ calculateEntropy s) ∧
    ((analyzeEntropy s).level = "medium" ↔
      3.5 ≤ calculateEntropy s ∧ calculateEntropy s < 5.0) ∧
    ((analyzeEntropy s).level = "low" ↔ calculateEntropy s < 3.5) := by
  unfold analyzeEntropy
  dsimp only
  split_ifs with h1 h2 h3 <;>
    refine ⟨rfl, ?_, ?_, ?_, ?_⟩ <;>
    simp <;>
    first
      | linarith
      | (intro hx; linarith)
      | (constructor <;> linarith)

/-- C7: `validatePattern` clears the `safe` flag exactly when the
nested-quantifier check or the wildcard-sequence check fires; the
multiple-alternations, backreference and large-character-class checks
only append their warnings and leave `safe` unaffected.  The validator
is a pure function of the pattern source: it never executes the
pattern. -/
theorem validatePattern_safe_characterization (p : String) :
    ((validatePattern p).safe = false ↔
      nestedQuantifierCheck p.data = true ∨
        wildcardSequenceCheck p.data = true) ∧
    (multipleAlternationsCheck p.data = true →
      "Multiple alternations with quantifiers - may cause ReDoS" ∈
        (validatePattern p).warnings) ∧
    (backreferenceCheck p.data = true →
      "Backreferences detected - may impact performance" ∈
        (validatePattern p).warnings) ∧
    (largeCharClassCheck p.data = true →
      "Very large character class - may impact performance" ∈
        (validatePattern p).warnings) := by
  unfold validatePattern
  dsimp only
  refine ⟨?_, ?_, ?_, ?_⟩
  · cases hnq : nestedQuantifierCheck p.data <;>
      cases hws : wildcardSequenceCheck p.data <;> simp [hnq, hws]
  · intro h
    simp [h]
  · intro h
    simp [h]
  · intro h
    simp [h]

/-- Witness for C7: a pattern exhibiting three alternations with a
quantifier, a backreference and a 50-character class receives all three
advisory warnings. -/
theorem validatePattern_safe_characterization_witness :
    multipleAlternationsCheck
        "a+|b|c|\\1[qwertyuiopasdfghjklzxcvbnmqwertyuiopasdfghjklzxcvbnm]".data
      = true ∧
    backreferenceCheck
        "a+|b|c|\\1[qwertyuiopasdfghjklzxcvbnmqwertyuiopasdfghjklzxcvbnm]".data
      = true ∧
    largeCharClassCheck
        "a+|b|c|\\1[qwertyuiopasdfghjklzxcvbnmqwertyuiopasdfghjklzxcvbnm]".data
      = true ∧
    "Multiple alternations with quantifiers - may cause ReDoS" ∈
      (validatePattern
        "a+|b|c|\\1[qwertyuiopasdfghjklzxcvbnmqwertyuiopasdfghjklzxcvbnm]").warnings ∧
    "Backreferences detected - may impact performance" ∈
      (validatePattern
        "a+|b|c|\\1[qwertyuiopasdfghjklzxcvbnmqwertyuiopasdfghjklzxcvbnm]").warnings ∧
    "Very large character class - may impact performance" ∈
      (validatePattern
        "a+|b|c|\\1[qwertyuiopasdfghjklzxcvbnmqwertyuiopasdfghjklzxcvbnm]").warnings :=
  ⟨by decide, by decide, by decide,
   (validatePattern_safe_characterization _).2.1 (by decide),
   (validatePattern_safe_characterization _).2.2.1 (by decide),
   (validatePattern_safe_characterization _).2.2.2 (by decide)⟩

/-- Unfolding lemma for the every-character engine's step function. -/
theorem everyCharEngine_find (n li : ℕ) :
    (everyCharEngine n).find li = if li < n then some (li, 1) else none := rfl

/-- Behaviour of the execution loop over an every-character-matching
engine: as long as the entry count `c` admits at most `MAX_MATCHES + 1`
total matches, every remaining character becomes a match; one match
more hits the ceiling error. -/
theorem safeRegexExecGo_everyChar (n : ℕ) :
    ∀ rem li c acc, li + rem = n → c ≤ MAX_MATCHES + 1 →
      (rem + c ≤ MAX_MATCHES + 1 →
        safeRegexExecGo (everyCharEngine n) li c acc =
          .ok (acc ++ (List.range rem).map fun k => (li + k, 1))) ∧
      (MAX_MATCHES + 2 ≤ rem + c →
        safeRegexExecGo (everyCharEngine n) li c acc =
          .error tooManyMatchesError) := by
  intro rem
  induction rem with
  | zero =>
    intro li c acc hn hc
    constructor
    · intro _
      rw [safeRegexExecGo]
      split
      next => simp
      next i l heq =>
        rw [everyCharEngine_find, if_neg (by omega)] at heq
        exact absurd heq (by simp)
    · intro habs
      omega
  | succ rem ih =>
    intro li c acc hn hc
    have hlt : li < n := by omega
    have hmaps : (List.range (rem + 1)).map (fun k => (li + k, 1)) =
        (li, 1) :: (List.range rem).map fun k => (li + 1 + k, 1) := by
      rw [List.range_succ_eq_map, List.map_cons, List.map_map]
      simp only [List.cons.injEq]
      refine ⟨by simp, List.map_congr_left fun k _ => ?_⟩
      simp only [Function.comp_apply, Prod.mk.injEq, and_true]
      omega
    constructor
    · intro hle
      rw [safeRegexExecGo]
      split
      next heq =>
        rw [everyCharEngine_find, if_pos hlt] at heq
        exact absurd heq (by simp)
      next i l heq =>
        rw [everyCharEngine_find, if_pos hlt] at heq
        simp only [Option.some.injEq, Prod.mk.injEq] at heq
        obtain ⟨hi, hl⟩ := heq
        subst hi
        subst hl
        rw [if_neg (by omega)]
        have hrec := (ih (li + 1) (c + 1) (acc ++ [(li, 1)]) (by omega)
          (by omega)).1 (by omega)
        simp only [Nat.one_ne_zero, if_false, hrec, hmaps]
        simp
    · intro hge
      rw [safeRegexExecGo]
      split
      next heq =>
        rw [everyCharEngine_find, if_pos hlt] at heq
        exact absurd heq (by simp)
      next i l heq =>
        rw [everyCharEngine_find, if_pos hlt] at heq
        simp only [Option.some.injEq, Prod.mk.injEq] at heq
        obtain ⟨hi, hl⟩ := heq
        subst hi
        subst hl
        by_cases hcm : MAX_MATCHES < c
        · rw [if_pos hcm]
        · rw [if_neg hcm]
          exact (ih (li + 1) (c + 1) (acc ++ [(li, 1)]) (by omega)
            (by omega)).2 (by omega)

/-- C5 (amended): the `matchCount++ > MAX_MATCHES` guard is off by one —
`safeRegexExec` returns up to `MAX_MATCHES + 1 = 10001` accumulated
matches and fails with the too-many-matches error (rather than
truncating) only once a 10002nd match is found; for a pattern matching
every single character, content of length at most 10001 yields all its
matches and content of length at least 10002 raises the error. -/
theorem safeRegexExec_matchCeiling (n : ℕ) :
    (n ≤ MAX_MATCHES + 1 →
      safeRegexExec (everyCharEngine n) =
        .ok ((List.range n).map fun k => (k, 1))) ∧
    (MAX_MATCHES + 2 ≤ n →
      safeRegexExec (everyCharEngine n) = .error tooManyMatchesError) := by
  have h := safeRegexExecGo_everyChar n n 0 0 [] (by omega) (by omega)
  unfold safeRegexExec
  constructor
  · intro hn
    rw [h.1 (by omega)]
    simp
  · intro hn
    exact h.2 (by omega)

/-- C5 counterexample: content of length 10001 — strictly longer than
the ceiling of 10000 — with a pattern matching every single character
returns all 10001 matches instead of raising the too-many-matches
error, refuting the claim that exceeding the ceiling always fails. -/
theorem safeRegexExec_matchCeiling_counterexample :
    MAX_MATCHES < 10001 ∧
    safeRegexExec (everyCharEngine 10001) =
      .ok ((List.range 10001).map fun k => (k, 1)) := by
  constructor
  · decide
  · have h := safeRegexExecGo_everyChar 10001 10001 0 0 [] (by omega)
      (by decide)
    unfold safeRegexExec
    rw [h.1 (by decide)]
    simp

/-- Witness for C5: three characters are all returned, and 10002
characters raise the ceiling error. -/
theorem safeRegexExec_matchCeiling_witness :
    safeRegexExec (everyCharEngine 3) =
      .ok ((List.range 3).map fun k => (k, 1)) ∧
    safeRegexExec (everyCharEngine 10002) = .error tooManyMatchesError :=
  ⟨(safeRegexExec_matchCeiling 3).1 (by decide),
   (safeRegexExec_matchCeiling 10002).2 (by decide)⟩

/-- C1: the disable-next-line sentinel contains the plain
`hardcoded-detector:disable` sentinel as a substring, so
`parseInlineIgnoreComments` takes the block-disable branch on it: for a
three-line file whose first line is a disable-next-line comment, the
ignored set is `{1, 2, 3}` — not `{2}` as specified — and an identical
credential on the adjacent unmarked third line is also suppressed, so
the whole analysis returns zero findings instead of one. -/
theorem parseInlineIgnore_nextLine_divergence :
    parseInlineIgnoreComments
        ["// hardcoded-detector:disable-next-line",
         "const apiKey = SECRETKEY1234;",
         "const apiKey2 = SECRETKEY1234;"] = ({1, 2, 3} : Finset ℕ) ∧
    analyzeContent [("corp_key", corpPattern)]
        (literalEngine "SECRETKEY1234")
        (.ok 100 []
          "// hardcoded-detector:disable-next-line\nconst apiKey = SECRETKEY1234;\nconst apiKey2 = SECRETKEY1234;")
        ⟨none, [], [], false⟩ = [] := by
  constructor
  · decide
  · rfl

/-- C4: `analyzeContent` returns the empty findings list — and, being a
total function, cannot throw — on a missing file, a permission-denied
file, any other read error, a file whose byte size exceeds 10 MiB, a
binary file (a null byte among the `min(512, size)` bytes actually
read), and a file of more than 100000 lines. -/
theorem analyzeContent_guards :
    (∀ pats execM opts, analyzeContent pats execM .missing opts = []) ∧
    (∀ pats execM opts,
      analyzeContent pats execM .permissionDenied opts = []) ∧
    (∀ pats execM opts, analyzeContent pats execM .otherError opts = []) ∧
    (∀ pats execM opts size hb text, MAX_FILE_SIZE < size →
      analyzeContent pats execM (.ok size hb text) opts = []) ∧
    (∀ pats execM opts size hb text,
      hb.length = min 512 size → (0 : ℕ) ∈ hb →
      analyzeContent pats execM (.ok size hb text) opts = []) ∧
    (∀ pats execM opts size hb text,
      MAX_LINES < (splitLines text).length →
      analyzeContent pats execM (.ok size hb text) opts = []) := by
  refine ⟨fun _ _ _ => rfl, fun _ _ _ => rfl, fun _ _ _ => rfl, ?_, ?_, ?_⟩
  · intro pats execM opts size hb text h
    unfold analyzeContent
    dsimp only
    rw [if_pos h]
  · intro pats execM opts size hb text _ h0
    unfold analyzeContent
    dsimp only
    by_cases hs : MAX_FILE_SIZE < size
    · rw [if_pos hs]
    · rw [if_neg hs, if_pos ?_]
      exact List.any_eq_true.mpr ⟨0, h0, by simp⟩
  · intro pats execM opts size hb text h
    unfold analyzeContent
    dsimp only
    by_cases hs : MAX_FILE_SIZE < size
    · rw [if_pos hs]
    · rw [if_neg hs]
      by_cases hbin : isBinaryFile hb = true
      · rw [if_pos hbin]
      · rw [if_neg hbin]
        rw [if_pos h]

/-- Witness for C4: a missing file, an 10485761-byte file, and a
one-byte file whose single read byte is null all yield zero findings. -/
theorem analyzeContent_guards_witness :
    analyzeContent [] (fun _ _ => []) .missing ⟨none, [], [], false⟩ = [] ∧
    (MAX_FILE_SIZE < 10485761 ∧
      analyzeContent [] (fun _ _ => []) (.ok 10485761 [] "k")
        ⟨none, [], [], false⟩ = []) ∧
    (([0] : List ℕ).length = min 512 1 ∧ (0 : ℕ) ∈ [0] ∧
      analyzeContent [] (fun _ _ => []) (.ok 1 [0] "k")
        ⟨none, [], [], false⟩ = []) :=
  ⟨analyzeContent_guards.1 _ _ _,
   ⟨by decide, analyzeContent_guards.2.2.2.1 _ _ _ _ _ _ (by decide)⟩,
   ⟨by decide, by decide,
    analyzeContent_guards.2.2.2.2.1 _ _ _ _ _ _ (by decide) (by decide)⟩⟩

/-- C3: the finding hash is a deterministic digest of exactly the
`(file, line, pattern id, matched text)` tuple; `isBaselined` is true
precisely when the loaded baseline holds an entry at the `file:line`
key whose stored hash equals the digest recomputed from the current
finding; consequently a finding whose matched text hashes differently
from the stored entry at the same key — as happens whenever the
matched text changed and the digests do not collide — survives
`filterFindings` and surfaces again. -/
theorem baselineHash_driftDetection (sha : FindingKey → String)
    (b : Baseline) (f : Finding) (path : String) :
    (∀ g : Finding, g.line = f.line → g.id = f.id →
      g.matchText = f.matchText →
      generateFindingHash sha g path = generateFindingHash sha f path) ∧
    (isBaselined sha (some b) f path = true ↔
      ∃ e, b.files.lookup (baselineKey path f.line) = some e ∧
        e.hash = generateFindingHash sha f path) ∧
    (∀ (frs : List FileResult) (fs : List Finding) (e : BaselineEntry),
      FileResult.mk path fs ∈ frs → f ∈ fs →
      b.files.lookup (baselineKey path f.line) = some e →
      e.hash ≠ generateFindingHash sha f path →
      ∃ fr ∈ filterFindings sha (some b) frs,
        fr.file = path ∧ f ∈ fr.findings) := by
  refine ⟨?_, ?_, ?_⟩
  · intro g h1 h2 h3
    unfold generateFindingHash
    rw [h1, h2, h3]
  · unfold isBaselined
    dsimp only
    cases hlook : b.files.lookup (baselineKey path f.line) with
    | none => simp
    | some e => simp [beq_iff_eq]
  · intro frs fs e hmem hf hlook hne
    have hnb : isBaselined sha (some b) f path = false := by
      unfold isBaselined
      dsimp only
      rw [hlook]
      exact beq_eq_false_iff_ne.mpr hne
    refine ⟨⟨path, fs.filter fun x => !isBaselined sha (some b) x path⟩,
      ?_, rfl, ?_⟩
    · unfold filterFindings
      refine List.mem_filterMap.mpr ⟨⟨path, fs⟩, hmem, ?_⟩
      have hfin : f ∈ fs.filter fun x => !isBaselined sha (some b) x path :=
        List.mem_filter.mpr ⟨hf, by rw [hnb]; rfl⟩
      rw [if_pos (List.length_pos.mpr (List.ne_nil_of_mem hfin))]
    · exact List.mem_filter.mpr ⟨hf, by rw [hnb]; rfl⟩

/-- Witness for C3: with a concrete injective digest and a baseline
entry recorded for a different matched text at the same `file:line`
key, the drifted finding survives filtering. -/
theorem baselineHash_driftDetection_witness :
    (Baseline.mk [("f.js:1",
        ⟨"corp_key", "Corp Key", "high", "f.js:1:corp_key:OLD", 1,
          "OLD"⟩)]).files.lookup (baselineKey "f.js" sampleFinding.line) =
      some ⟨"corp_key", "Corp Key", "high", "f.js:1:corp_key:OLD", 1, "OLD"⟩ ∧
    ("f.js:1:corp_key:OLD" ≠
      generateFindingHash
        (fun k => k.file ++ ":" ++ toString k.line ++ ":" ++ k.id ++ ":" ++
          k.matchText)
        sampleFinding "f.js") ∧
    ∃ fr ∈ filterFindings
        (fun k => k.file ++ ":" ++ toString k.line ++ ":" ++ k.id ++ ":" ++
          k.matchText)
        (some (Baseline.mk [("f.js:1",
          ⟨"corp_key", "Corp Key", "high", "f.js:1:corp_key:OLD", 1,
            "OLD"⟩)]))
        [⟨"f.js", [sampleFinding]⟩],
      fr.file = "f.js" ∧ sampleFinding ∈ fr.findings := by
  refine ⟨rfl, ?_, ?_⟩
  · decide
  · exact (baselineHash_driftDetection
      (fun k => k.file ++ ":" ++ toString k.line ++ ":" ++ k.id ++ ":" ++
        k.matchText)
      (Baseline.mk [("f.js:1",
        ⟨"corp_key", "Corp Key", "high", "f.js:1:corp_key:OLD", 1, "OLD"⟩)])
      sampleFinding "f.js").2.2
      [⟨"f.js", [sampleFinding]⟩] [sampleFinding] _
      (by simp) (by simp) rfl (by decide)

/-- C10: `filterFindings` returns its input unchanged when no baseline
has been loaded; when the input's file entries all carry a non-empty
findings list, every output entry also carries a non-empty findings
list (a fully-baselined file is dropped rather than kept empty), so
`formatResults` reports `filesWithIssues` equal to the number of files
with at least one surviving finding. -/
theorem filterFindings_nonEmptyInvariant (sha : FindingKey → String)
    (baseline : Option Baseline) (input : List FileResult) (total : ℕ) :
    (baseline = none → filterFindings sha baseline input = input) ∧
    ((∀ fr ∈ input, fr.findings ≠ []) →
      (∀ fr ∈ filterFindings sha baseline input, fr.findings ≠ []) ∧
      (formatResults total (filterFindings sha baseline input)).filesWithIssues
        = ((filterFindings sha baseline input).filter
            fun fr => !fr.findings.isEmpty).length) := by
  constructor
  · intro hnone
    subst hnone
    rfl
  · intro hin
    have hout : ∀ fr ∈ filterFindings sha baseline input, fr.findings ≠ [] := by
      cases baseline with
      | none => exact hin
      | some b =>
        intro fr hfr
        unfold filterFindings at hfr
        rcases List.mem_filterMap.mp hfr with ⟨src, _, heq⟩
        by_cases hk : 0 < (src.findings.filter
            fun x => !isBaselined sha (some b) x src.file).length
        · rw [if_pos hk] at heq
          cases heq
          exact List.ne_nil_of_length_pos hk
        · rw [if_neg hk] at heq
          exact absurd heq (by simp)
    refine ⟨hout, ?_⟩
    have hfil : (filterFindings sha baseline input).filter
        (fun fr => !fr.findings.isEmpty) = filterFindings sha baseline input :=
      List.filter_eq_self.mpr fun fr hfr => by
        simpa using hout fr hfr
    rw [hfil]
    rfl

/-- Witness for C10: with no loaded baseline, a singleton input with one
finding passes through unchanged and keeps its non-empty entry. -/
theorem filterFindings_nonEmptyInvariant_witness :
    filterFindings (fun _ => "") none [⟨"a.txt", [sampleFinding]⟩] =
      [⟨"a.txt", [sampleFinding]⟩] ∧
    (∀ fr ∈ ([⟨"a.txt", [sampleFinding]⟩] : List FileResult),
      fr.findings ≠ []) ∧
    ∀ fr ∈ filterFindings (fun _ => "") none [⟨"a.txt", [sampleFinding]⟩],
      fr.findings ≠ [] := by
  have hin : ∀ fr ∈ ([⟨"a.txt", [sampleFinding]⟩] : List FileResult),
      fr.findings ≠ [] := by
    intro fr hfr
    rcases List.mem_singleton.mp hfr with rfl
    simp
  exact ⟨(filterFindings_nonEmptyInvariant (fun _ => "") none
      [⟨"a.txt", [sampleFinding]⟩] 1).1 rfl, hin,
    ((filterFindings_nonEmptyInvariant (fun _ => "") none
      [⟨"a.txt", [sampleFinding]⟩] 1).2 hin).1⟩

/-- Lookup unfolding on a cons cell of an association list. -/
theorem lookupCons (k : String) (v : PatternInfo)
    (rest : List (String × PatternInfo)) (id : String) :
    ((k, v) :: rest).lookup id =
      if id == k then some v else rest.lookup id := by
  simp only [List.lookup]
  cases h : id == k <;> simp

/-- A key absent from an association list's key list looks up to
nothing. -/
theorem lookupNoneOfNotMemKeys (m : List (String × PatternInfo))
    (id : String) (h : id ∉ m.map Prod.fst) : m.lookup id = none := by
  induction m with
  | nil => rfl
  | cons kv rest ih =>
    simp only [List.map_cons, List.mem_cons] at h
    push_neg at h
    cases kv with
    | mk k v =>
      rw [lookupCons, if_neg (by simpa using h.1)]
      exact ih h.2

/-- Conversely, a key that looks up to nothing is not in the key
list. -/
theorem lookupNoneNotMemKeys (m : List (String × PatternInfo))
    (id : String) (h : m.lookup id = none) : id ∉ m.map Prod.fst := by
  induction m with
  | nil => simp
  | cons kv rest ih =>
    cases kv with
    | mk k v =>
      rw [lookupCons] at h
      by_cases hk : (id == k) = true
      · rw [if_pos hk] at h
        exact absurd h (by simp)
      · rw [if_neg hk] at h
        simp only [List.map_cons, List.mem_cons]
        push_neg
        exact ⟨by simpa using hk, ih h⟩

/-- Lookup distributes over the append of two association lists,
preferring the first. -/
theorem lookupAppendPatterns (l1 l2 : List (String × PatternInfo))
    (id : String) :
    (l1 ++ l2).lookup id =
      match l1.lookup id with
      | some v => some v
      | none => l2.lookup id := by
  induction l1 with
  | nil => rfl
  | cons kv rest ih =>
    cases kv with
    | mk k v =>
      rw [List.cons_append, lookupCons, lookupCons]
      by_cases h : (id == k) = true
      · rw [if_pos h, if_pos h]
      · rw [if_neg h, if_neg h, ih]

/-- Lookup over the overlay map of `objAssign`'s first half. -/
theorem lookupMapOverlay (base upd : List (String × PatternInfo))
    (id : String) :
    (base.map fun kv =>
      (kv.1, match upd.lookup kv.1 with
             | some v => v
             | none => kv.2)).lookup id =
      match base.lookup id with
      | some v =>
        some (match upd.lookup id with
              | some w => w
              | none => v)
      | none => none := by
  induction base with
  | nil => rfl
  | cons kv rest ih =>
    cases kv with
    | mk k v =>
      rw [List.map_cons, lookupCons, lookupCons]
      by_cases h : (id == k) = true
      · have : id = k := beq_iff_eq.mp h
        subst this
        rw [if_pos h, if_pos h]
      · rw [if_neg h, if_neg h, ih]

/-- Lookup over `objAssign`'s appended half: when the base misses the
key, filtering on base-missing keys is transparent. -/
theorem lookupFilterIsNone (base upd : List (String × PatternInfo))
    (id : String) (hbn : base.lookup id = none) :
    (upd.filter fun kv => (base.lookup kv.1).isNone).lookup id =
      upd.lookup id := by
  induction upd with
  | nil => rfl
  | cons kv rest ih =>
    cases kv with
    | mk k w =>
      simp only [List.filter_cons]
      by_cases hp : (base.lookup k).isNone = true
      · rw [if_pos hp, lookupCons, lookupCons]
        by_cases h : (id == k) = true
        · rw [if_pos h, if_pos h]
        · rw [if_neg h, if_neg h, ih]
      · rw [if_neg hp, lookupCons]
        by_cases h : (id == k) = true
        · have : id = k := beq_iff_eq.mp h
          subst this
          rw [hbn] at hp
          exact absurd rfl hp
        · rw [if_neg h, ih]

/-- Lookup characterisation of `objAssign`: a custom entry replaces the
built-in entry under the same id, and otherwise both maps contribute. -/
theorem lookupObjAssign (base upd : List (String × PatternInfo))
    (id : String) :
    (objAssign base upd).lookup id =
      match base.lookup id with
      | some v =>
        some (match upd.lookup id with
              | some w => w
              | none => v)
      | none => upd.lookup id := by
  unfold objAssign
  rw [lookupAppendPatterns, lookupMapOverlay]
  cases hb : base.lookup id with
  | none => exact lookupFilterIsNone base upd id hb
  | some v => rfl

/-- Lookup characterisation of `deleteKeys`: a deleted id looks up to
nothing, every other id is untouched. -/
theorem lookupDeleteKeys (m : List (String × PatternInfo))
    (ids : List String) (id : String) :
    (deleteKeys m ids).lookup id =
      if ids.contains id then none else m.lookup id := by
  induction m with
  | nil =>
    by_cases hc : ids.contains id = true
    · rw [if_pos hc]
      rfl
    · rw [if_neg hc]
      rfl
  | cons kv rest ih =>
    cases kv with
    | mk k v =>
      unfold deleteKeys at ih ⊢
      simp only [List.filter_cons]
      by_cases hc : ids.contains k = true
      · rw [if_neg (by rw [hc]; exact Bool.false_ne_true), ih, lookupCons]
        by_cases h : (id == k) = true
        · have : id = k := beq_iff_eq.mp h
          subst this
          rw [if_pos hc, if_pos hc]
        · rw [if_neg h]
      · have hcf : ids.contains k = false := by
          simpa using hc
        rw [if_pos (by rw [hcf]; rfl), lookupCons, lookupCons]
        by_cases h : (id == k) = true
        · have : id = k := beq_iff_eq.mp h
          subst this
          rw [if_pos h, if_neg (by rw [hcf]; exact Bool.false_ne_true),
            if_pos h]
        · rw [if_neg h, if_neg h, ih]

/-- The value-level filter of `validateAndFilterPatterns` commutes with
lookup on maps with unique keys. -/
theorem lookupValidateFilter (m : List (String × PatternInfo))
    (id : String) (hnd : (m.map Prod.fst).Nodup) :
    (validateAndFilterPatterns m).lookup id =
      match m.lookup id with
      | some v =>
        if (validatePattern v.pattern).safe then some v else none
      | none => none := by
  induction m with
  | nil => rfl
  | cons kv rest ih =>
    cases kv with
    | mk k v =>
      simp only [List.map_cons, List.nodup_cons] at hnd
      unfold validateAndFilterPatterns at ih ⊢
      simp only [List.filter_cons]
      by_cases hs : (validatePattern v.pattern).safe = true
      · rw [if_pos hs, lookupCons, lookupCons]
        by_cases h : (id == k) = true
        · rw [if_pos h, if_pos h]
          dsimp only
          rw [if_pos hs]
        · rw [if_neg h, if_neg h, ih hnd.2]
      · have hsf : (validatePattern v.pattern).safe = false := by
          simpa using hs
        rw [if_neg (by rw [hsf]; exact Bool.false_ne_true), lookupCons]
        by_cases h : (id == k) = true
        · have : id = k := beq_iff_eq.mp h
          subst this
          rw [if_pos h, ih hnd.2, lookupNoneOfNotMemKeys rest id hnd.1]
          dsimp only
          rw [if_neg (by rw [hsf]; exact Bool.false_ne_true)]
        · rw [if_neg h, ih hnd.2]

/-- Key lists survive `objAssign` without duplication: the overlay keeps
the base's keys and appends only custom keys absent from the base. -/
theorem objAssignKeysNodup (base upd : List (String × PatternInfo))
    (hb : (base.map Prod.fst).Nodup) (hu : (upd.map Prod.fst).Nodup) :
    ((objAssign base upd).map Prod.fst).Nodup := by
  unfold objAssign
  rw [List.map_append]
  have hmb : ((base.map fun kv =>
      (kv.1, match upd.lookup kv.1 with
             | some v => v
             | none => kv.2)).map Prod.fst) = base.map Prod.fst := by
    rw [List.map_map]
    rfl
  rw [hmb]
  refine List.Nodup.append hb
    (((List.filter_sublist _).map Prod.fst).nodup hu) ?_
  intro a ha hfa
  rcases List.mem_map.mp hfa with ⟨kv, hkv, hfst⟩
  rcases List.mem_filter.mp hkv with ⟨_, hnone⟩
  have hbnone : base.lookup a = none := by
    rw [← hfst]
    exact Option.isNone_iff_eq_none.mp hnone
  exact lookupNoneNotMemKeys base a hbnone ha

/-- Lemma: `deleteKeys` only removes entries, so unique keys stay unique. -/
theorem deleteKeysKeysNodup (m : List (String × PatternInfo))
    (ids : List String) (h : (m.map Prod.fst).Nodup) :
    ((deleteKeys m ids).map Prod.fst).Nodup :=
  ((List.filter_sublist m).map Prod.fst).nodup h

/-- C8: for catalogs with unique ids (JavaScript objects), the active
set produced at load time is the built-in catalog overlaid with the
custom patterns (a custom entry replaces a built-in entry with the same
id), minus the ids of the custom `disabled` list, minus every pattern
the static ReDoS validator flags unsafe; and every pattern of any active
set has passed the validator.  The filtering happens inside
`loadPatterns`, which the `ContentAnalyzer` constructor runs once per
instance, not per analysis call. -/
theorem loadPatterns_activeSet (builtin : List (String × PatternInfo))
    (custom : CustomPatterns) (id : String)
    (hb : (builtin.map Prod.fst).Nodup)
    (hu : ((custom.patterns.getD []).map Prod.fst).Nodup) :
    ((loadPatterns builtin (some custom)).lookup id =
      if (custom.disabled.getD []).contains id then none
      else
        match (custom.patterns.getD []).lookup id, builtin.lookup id with
        | some p, _ =>
          if (validatePattern p.pattern).safe then some p else none
        | none, some p =>
          if (validatePattern p.pattern).safe then some p else none
        | none, none => none) ∧
    (∀ cust : Option CustomPatterns, ∀ kv ∈ loadPatterns builtin cust,
      (validatePattern kv.2.pattern).safe = true) := by
  constructor
  · unfold loadPatterns mergePatterns
    dsimp only
    cases hcp : custom.patterns with
    | none =>
      cases hcd : custom.disabled with
      | none =>
        rw [lookupValidateFilter _ _ hb]
        dsimp only [Option.getD]
        cases hbl : builtin.lookup id <;> rfl
      | some ids =>
        rw [lookupValidateFilter _ _ (deleteKeysKeysNodup _ _ hb),
          lookupDeleteKeys]
        dsimp only [Option.getD]
        by_cases hcid : ids.contains id = true
        · rw [if_pos hcid, if_pos hcid]
        · rw [if_neg hcid, if_neg hcid]
          cases hbl : builtin.lookup id <;> rfl
    | some ps =>
      rw [hcp] at hu
      dsimp only [Option.getD] at hu
      cases hcd : custom.disabled with
      | none =>
        rw [lookupValidateFilter _ _ (objAssignKeysNodup _ _ hb hu),
          lookupObjAssign]
        dsimp only [Option.getD]
        cases hbl : builtin.lookup id <;> cases hpl : ps.lookup id <;> rfl
      | some ids =>
        rw [lookupValidateFilter _ _
            (deleteKeysKeysNodup _ _ (objAssignKeysNodup _ _ hb hu)),
          lookupDeleteKeys]
        dsimp only [Option.getD]
        by_cases hcid : ids.contains id = true
        · rw [if_pos hcid, if_pos hcid]
        · rw [if_neg hcid, if_neg hcid, lookupObjAssign]
          cases hbl : builtin.lookup id <;> cases hpl : ps.lookup id <;> rfl
  · intro cust kv hkv
    unfold loadPatterns validateAndFilterPatterns at hkv
    exact (List.mem_filter.mp hkv).2

/-- Witness for C8: a built-in entry under a disabled id disappears, a
custom entry under a fresh id survives after passing the validator, and
the surviving pattern indeed passes the validator. -/
theorem loadPatterns_activeSet_witness :
    (([("aws", corpPattern)].map Prod.fst).Nodup) ∧
    (([("corp", corpPattern)].map Prod.fst).Nodup) ∧
    ((loadPatterns [("aws", corpPattern)]
        (some ⟨some [("corp", corpPattern)], some ["aws"]⟩)).lookup "corp" =
      if (["aws"] : List String).contains "corp" then none
      else
        match
          ([("corp", corpPattern)] : List (String × PatternInfo)).lookup
            "corp",
          ([("aws", corpPattern)] : List (String × PatternInfo)).lookup
            "corp" with
        | some p, _ =>
          if (validatePattern p.pattern).safe then some p else none
        | none, some p =>
          if (validatePattern p.pattern).safe then some p else none
        | none, none => none) ∧
    (validatePattern corpPattern.pattern).safe = true := by
  refine ⟨by decide, by decide, ?_, ?_⟩
  · exact (loadPatterns_activeSet [("aws", corpPattern)]
      ⟨some [("corp", corpPattern)], some ["aws"]⟩ "corp"
      (by decide) (by decide)).1
  · exact (loadPatterns_activeSet [("aws", corpPattern)]
      ⟨some [("corp", corpPattern)], some ["aws"]⟩ "corp"
      (by decide) (by decide)).2 none ("aws", corpPattern) (by decide)

/-- The two strategies build the per-file result list by shapes that
coincide: keeping the files with findings via `filterMap` equals
pairing, filtering and repackaging. -/
theorem filterMapSelect (files : List String)
    (g : String → List Finding) :
    files.filterMap (fun f =>
      if 0 < (g f).length then some (⟨f, g f⟩ : FileResult) else none) =
    ((files.map fun f => (f, g f)).filter fun r => 0 < r.2.length).map
      fun r => (⟨r.1, r.2⟩ : FileResult) := by
  induction files with
  | nil => rfl
  | cons a rest ih =>
    simp only [List.filterMap_cons, List.map_cons, List.filter_cons]
    by_cases h : 0 < (g a).length
    · simp [h, ih]
    · simp [h, ih]

/-- Supporting fact for C2: when the options carry no custom-patterns
document, the sequential and the parallel strategy are the same
function of the file list — the divergence below is exactly the custom
catalog. -/
theorem scanStrategiesAgreeWithoutCustom (sha : FindingKey → String)
    (builtin : List (String × PatternInfo))
    (execM : PatternInfo → String → List RMatch)
    (fs : String → FileState) (bl : Baseline) (o : ScanOptions)
    (files : List String) (hc : o.customPatterns = none) :
    scanSingleThreaded sha builtin execM fs bl o files =
      scanParallel sha builtin execM fs bl o files := by
  unfold scanSingleThreaded scanParallel
  rw [hc]
  dsimp only
  rw [filterMapSelect files
    (fun file =>
      analyzeContent (loadPatterns builtin none) execM (fs file)
        (toAnalysisOptions o))]

/-- C2: the strategies are not equivalent for every option set — the
parallel path loses custom patterns.  `analyzerWorker.js` constructs
`new ContentAnalyzer()` without the configured custom-patterns path, so
with a custom catalog defining a matching pattern over one
credential-bearing file, the sequential scan reports one file with
issues while the parallel scan reports zero. -/
theorem scanParallel_dropsCustomPatterns :
    (scanSingleThreaded (fun _ => "") [] (literalEngine "CORPKEY0")
        (fun _ => .ok 20 [] "x = CORPKEY0;") ⟨[]⟩
        ⟨some ⟨some [("corp_key", corpPattern)], none⟩, "medium", [], [],
          false, false⟩
        ["a.txt"]).filesWithIssues = 1 ∧
    (scanParallel (fun _ => "") [] (literalEngine "CORPKEY0")
        (fun _ => .ok 20 [] "x = CORPKEY0;") ⟨[]⟩
        ⟨some ⟨some [("corp_key", corpPattern)], none⟩, "medium", [], [],
          false, false⟩
        ["a.txt"]).filesWithIssues = 0 :=
  ⟨rfl, rfl⟩

end Detector
